import Mathlib

/-!
Shallow embedding of the GeminiProChat repository's core logic:
the model registry (`loadModelsFromEnv`, `getModelById`, `pickDefaultModelId`),
the provider adapters (`streamFromOpenAI`, `streamFromGemini`), the streaming
gateway request handler (`onRequestPost`), the session store
(`generateSessionTitle`, `updateSession`) and the client orchestrator's
stream-finalisation step (`convertReqMsgList`, `archiveCurrentMessage`,
`stopStreamFetch`).

Conventions of the embedding:
* JavaScript values that may be `undefined`/`null` are `Option`s; the
  JS truthiness test on a string (`if (s)`) is `jstr`, which maps the empty
  string to `none`.
* `JSON.parse` and `crypto.subtle.digest` are external library calls; they
  are abstracted as an already-parsed `Option (List RawModel)` field of the
  environment and as an opaque `hash : String → String` parameter.
* `Date.now()` is an explicit `now : Nat` parameter (epoch milliseconds).
* Numeric env values (`temperature`) are carried as `Rat`.
-/

/-- Role of a chat turn (src/src/types.ts, `functions/api/generate.ts`):
`user` or `model`. -/
inductive Role where
  | user
  | model
deriving DecidableEq, Repr

/-- An uploaded image descriptor: base64 data URI plus metadata
(`ChatMessage.parts[].image` in functions/api/generate.ts). -/
structure ImageDesc where
  url : String
  name : String
  size : Nat
  type : String
deriving DecidableEq, Repr

/-- One content fragment of a turn: optional `text` and/or optional `image`
(`ChatMessage.parts` element in functions/api/generate.ts). -/
structure ChatPart where
  text : Option String
  image : Option ImageDesc
deriving DecidableEq, Repr

/-- One turn of a conversation (functions/api/generate.ts `ChatMessage`). -/
structure ChatMessage where
  role : Role
  parts : List ChatPart
deriving DecidableEq, Repr

/-- One conversation thread (src/src/types.ts `ChatSession`); timestamps are
epoch milliseconds. -/
structure ChatSession where
  id : String
  title : String
  messages : List ChatMessage
  createdAt : Nat
  updatedAt : Nat
deriving DecidableEq, Repr

/-- JS string truthiness: `undefined`, `null` and `""` are falsy. -/
def jstr : Option String → Option String
  | none => none
  | some s => if s = "" then none else some s

/-- JS `a || b || ... || d` over string expressions: the first truthy value,
else the default `d`. -/
def jsOrD : List (Option String) → String → String
  | [], d => d
  | x :: rest, d =>
    match jstr x with
    | some s => s
    | none => jsOrD rest d

/-! ### JS string builtins

The JS engine's string methods are modelled by structural recursion over the
character list (the core library's `String.trim`, `toLowerCase` etc. are
well-founded recursions the kernel cannot evaluate). -/

/-- JS `s.trim()`: leading and trailing whitespace removed. -/
def jsTrim (s : String) : String :=
  ⟨((s.data.dropWhile Char.isWhitespace).reverse.dropWhile Char.isWhitespace).reverse⟩

/-- JS `s.toLowerCase()` (over the ASCII range the source compares against). -/
def jsToLower (s : String) : String :=
  ⟨s.data.map Char.toLower⟩

/-- JS `s.startsWith(p)`. -/
def jsStartsWith (s p : String) : Bool :=
  p.data.isPrefixOf s.data

/-- JS `s.endsWith(p)`. -/
def jsEndsWith (s p : String) : Bool :=
  p.data.isSuffixOf s.data

/-- Splitting at every occurrence of the separator character, accumulator of
the current piece held reversed. -/
def jsSplitAux (sep : Char) : List Char → List Char → List String
  | [], acc => [⟨acc.reverse⟩]
  | c :: rest, acc =>
    if c = sep then ⟨acc.reverse⟩ :: jsSplitAux sep rest []
    else jsSplitAux sep rest (c :: acc)

/-- JS `s.split(sep)` for a one-character separator. -/
def jsSplit (sep : Char) (s : String) : List String :=
  jsSplitAux sep s.data []

/-! ## Session store (src/src/utils/sessions.ts) -/

/-- src/src/utils/sessions.ts `generateSessionTitle`: `"New Chat"` when the
list is empty or holds no user turn; otherwise the first user turn's part
texts joined by a space (JS `parts.map(p => p.text).join(' ')`, where an
absent text joins as `""`), truncated to 30 characters plus `"..."` when
longer than 30. -/
def generateSessionTitle (messages : List ChatMessage) : String :=
  if messages.length = 0 then "New Chat"
  else
    match messages.find? (fun msg => decide (msg.role = Role.user)) with
    | none => "New Chat"
    | some firstUserMessage =>
      let content :=
        String.intercalate " " (firstUserMessage.parts.map (fun part => part.text.getD ""))
      if content.length > 30 then content.take 30 ++ "..." else content

/-- A `Partial<ChatSession>` patch as `updateSession` receives it: a field set
to `none` is absent from the patch. -/
structure SessionPatch where
  id : Option String := none
  title : Option String := none
  messages : Option (List ChatMessage) := none
  createdAt : Option Nat := none
  updatedAt : Option Nat := none
deriving DecidableEq, Repr

/-- src/src/utils/sessions.ts `updateSession`: map over the list; the session
whose id matches gets the patch's fields spread over it and `updatedAt`
refreshed to `Date.now()` (the explicit `now`); every other session is
returned as is. The spread order `{ ...session, ...updates, updatedAt: now }`
makes `now` win over any `updatedAt` in the patch. -/
def updateSession (now : Nat) (sessions : List ChatSession) (sessionId : String)
    (updates : SessionPatch) : List ChatSession :=
  sessions.map (fun session =>
    if session.id = sessionId then
      { id := updates.id.getD session.id
        title := updates.title.getD session.title
        messages := updates.messages.getD session.messages
        createdAt := updates.createdAt.getD session.createdAt
        updatedAt := now }
    else session)

/-! ## Same-role collapse (src/src/components/Generator.tsx `convertReqMsgList`)

The source filters the list keeping entry `i` iff there is no entry `i+1`
or the roles of entries `i` and `i+1` differ; since the predicate looks only
at the entry and its successor, it is the structural recursion below. -/

/-- src/src/components/Generator.tsx `convertReqMsgList`: keep a message iff
it is the last one or its role differs from the next message's role. -/
def convertReqMsgList : List ChatMessage → List ChatMessage
  | [] => []
  | [curMsg] => [curMsg]
  | curMsg :: nextMsg :: rest =>
    if curMsg.role = nextMsg.role then convertReqMsgList (nextMsg :: rest)
    else curMsg :: convertReqMsgList (nextMsg :: rest)

/-- The filter callback of the source, literally: entry `i` of `arr` is kept
iff there is no entry `i + 1` or their roles differ. -/
def keepAtIdx (arr : List ChatMessage) (i : Nat) : Option ChatMessage :=
  match arr[i]?, arr[i + 1]? with
  | some cur, none => some cur
  | some cur, some next => if cur.role ≠ next.role then some cur else none
  | none, _ => none

/-- The index-based transcription of the source's
`filter((curMsg, i, arr) => !arr[i+1] || curMsg.role !== arr[i+1].role)`. -/
def convertReqMsgListIdx (arr : List ChatMessage) : List ChatMessage :=
  (List.range arr.length).filterMap (keepAtIdx arr)

/-- Shifting the filter callback past a head element. -/
theorem keepAtIdx_cons (a : ChatMessage) (rest : List ChatMessage) (i : Nat) :
    keepAtIdx (a :: rest) (i + 1) = keepAtIdx rest i := by
  simp [keepAtIdx, List.getElem?_cons_succ]

/-- The structural recursion `convertReqMsgList` computes exactly the
source's index-based filter. -/
theorem convertReqMsgList_eq_idx (l : List ChatMessage) :
    convertReqMsgList l = convertReqMsgListIdx l := by
  induction l with
  | nil => rfl
  | cons a rest ih =>
    have hshift : convertReqMsgListIdx (a :: rest) =
        (keepAtIdx (a :: rest) 0).toList ++ convertReqMsgListIdx rest := by
      unfold convertReqMsgListIdx
      rw [List.length_cons, List.range_succ_eq_map, List.filterMap_cons, List.filterMap_map]
      have hfun : (keepAtIdx (a :: rest)) ∘ Nat.succ = keepAtIdx rest := by
        funext i
        exact keepAtIdx_cons a rest i
      rw [hfun]
      cases hk : keepAtIdx (a :: rest) 0 <;> simp
    rw [hshift, ← ih]
    cases rest with
    | nil => simp [convertReqMsgList, keepAtIdx]
    | cons b t =>
      by_cases hab : a.role = b.role
      · simp [convertReqMsgList, hab, keepAtIdx]
      · simp [convertReqMsgList, hab, keepAtIdx]

/-! ## Model registry (functions/api/generate.ts, src/src/utils/models.ts) -/

/-- A resolved provider binding (functions/api/generate.ts `ModelConfig`).
`provider` is the lowercased provider string; entries surviving
`loadModelsFromEnv`'s filter have it equal to `"openai"` or `"gemini"`. -/
structure ModelConfig where
  id : String
  label : Option String
  provider : String
  model : String
  baseUrl : Option String
  apiKey : Option String
  temperature : Option Rat
deriving DecidableEq, Repr

/-- One element of the parsed `MODELS_JSON` array, as the untyped JS object
`m` is read: each accessed field is an optional string (`Number(m.temperature)`
is abstracted as an already-converted `Rat`). -/
structure RawModel where
  id : Option String := none
  label : Option String := none
  provider : Option String := none
  model : Option String := none
  baseUrl : Option String := none
  apiKey : Option String := none
  temperature : Option Rat := none
deriving DecidableEq, Repr

/-- The environment bindings the gateway reads (Cloudflare `env` object in
functions/api/generate.ts, `process.env` / `import.meta.env` in the astro
variants). `parsedModels` is the result of
`JSON.parse(env.MODELS_JSON || env.AI_MODELS)`: `none` when the variable is
unset, the JSON is malformed (`readJSON` returns null), or the value is not
an array; `JSON.parse` itself is an external library call abstracted here. -/
structure Env where
  parsedModels : Option (List RawModel) := none
  OPENAI_API_KEY : Option String := none
  OPENAI_APIKEY : Option String := none
  OPENAI_MODEL_NAME : Option String := none
  OPENAI_MODEL : Option String := none
  OPENAI_BASE_URL : Option String := none
  OPENAI_API_BASE : Option String := none
  OPENAI_API_HOST : Option String := none
  OPENAI_API_URL : Option String := none
  OPENAI_TEMPERATURE : Option Rat := none
  GEMINI_API_KEY : Option String := none
  API_BASE_URL : Option String := none
  GEMINI_MODEL_NAME : Option String := none
  SITE_PASSWORD : Option String := none
  PUBLIC_SECRET_KEY : Option String := none
  AI_PROVIDER : Option String := none
  MODEL_PROVIDER : Option String := none
  DEFAULT_MODEL_ID : Option String := none
deriving Repr

/-- The map step of `loadModelsFromEnv` over one parsed entry (index `i`):
JS `String(x || fallback)` coercions, with an absent field interpolating as
`"undefined"` inside the label template literal. -/
def rawToConfig (i : Nat) (m : RawModel) : ModelConfig :=
  { id := (jstr m.id).getD ("model_" ++ toString (i + 1))
    label := some ((jstr m.label).getD
      (m.provider.getD "undefined" ++ ":" ++ m.model.getD "undefined"))
    provider := jsToLower (m.provider.getD "")
    model := m.model.getD ""
    baseUrl := jstr m.baseUrl
    apiKey := jstr m.apiKey
    temperature := m.temperature }

/-- functions/api/generate.ts `loadModelsFromEnv`: structured entries from the
parsed models JSON (mapped, then filtered to recognised providers with a
non-empty model), then at most one legacy OpenAI entry, then at most one
legacy Gemini entry. -/
def loadModelsFromEnv (env : Env) : List ModelConfig :=
  let structured :=
    match env.parsedModels with
    | some parsed =>
      if parsed.length ≠ 0 then
        (parsed.mapIdx rawToConfig).filter
          (fun m => (m.provider == "openai" || m.provider == "gemini") && m.model != "")
      else []
    | none => []
  let openaiKey := jsTrim (jsOrD [env.OPENAI_API_KEY, env.OPENAI_APIKEY] "")
  let openaiModel := jsTrim (jsOrD [env.OPENAI_MODEL_NAME, env.OPENAI_MODEL] "")
  let openaiBase := jsTrim (jsOrD [env.OPENAI_BASE_URL, env.OPENAI_API_BASE,
    env.OPENAI_API_HOST, env.OPENAI_API_URL] "")
  let openaiTemp := env.OPENAI_TEMPERATURE.getD (7 / 10 : Rat)
  let openaiLegacy :=
    if openaiKey ≠ "" ∧ openaiModel ≠ "" then
      [{ id := "openai_env", label := some "OpenAI (ENV)", provider := "openai",
         model := openaiModel, baseUrl := jstr (some openaiBase),
         apiKey := some openaiKey, temperature := some openaiTemp : ModelConfig }]
    else []
  let geminiKey := jsTrim (env.GEMINI_API_KEY.getD "")
  let geminiBase := jsTrim (env.API_BASE_URL.getD "")
  let geminiModel := jsTrim (jsOrD [env.GEMINI_MODEL_NAME] "gemini-2.5-flash")
  let geminiLegacy :=
    if geminiKey ≠ "" then
      [{ id := "gemini_env", label := some "Gemini (ENV)", provider := "gemini",
         model := geminiModel, baseUrl := jstr (some geminiBase),
         apiKey := some geminiKey, temperature := none : ModelConfig }]
    else []
  structured ++ openaiLegacy ++ geminiLegacy

/-- functions/api/generate.ts `getModelById`: null for an empty registry, the
first entry when `id` is absent (or empty, JS `!id`), otherwise the entry with
that id or null. -/
def getModelById (configs : List ModelConfig) (id : Option String) : Option ModelConfig :=
  if configs.length = 0 then none
  else
    match jstr id with
    | none => configs.head?
    | some i => configs.find? (fun m => m.id == i)

/-- src/src/utils/models.ts `pickDefaultModelId` (same logic as
src/src/pages/api/models.ts): null for an empty registry; a non-empty trimmed
`DEFAULT_MODEL_ID` selects the matching entry's id when one exists; otherwise
the first entry's id. -/
def pickDefaultModelId (env : Env) (configs : List ModelConfig) : Option String :=
  if configs.length = 0 then none
  else
    let explicit := jsTrim (env.DEFAULT_MODEL_ID.getD "")
    if explicit ≠ "" then
      match configs.find? (fun m => m.id == explicit) with
      | some m => some m.id
      | none => configs.head?.map (fun m => m.id)
    else configs.head?.map (fun m => m.id)

/-- Modelled from the claim's words (spec §4.1 default policy), for comparison
with `pickDefaultModelId`: (a) a configured preferred-provider setting selects
the first registry entry of that provider when one exists; (b) a configured
default-model-id setting selects that id when present; (c) otherwise the first
entry; null only for an empty registry. -/
def pickDefaultModelIdClaim (env : Env) (configs : List ModelConfig) : Option String :=
  if configs.length = 0 then none
  else
    let pref := jsToLower (env.AI_PROVIDER.getD "")
    match if pref ≠ "" then configs.find? (fun m => m.provider == pref) else none with
    | some m => some m.id
    | none =>
      let explicit := jsTrim (env.DEFAULT_MODEL_ID.getD "")
      match if explicit ≠ "" then configs.find? (fun m => m.id == explicit) else none with
      | some m => some m.id
      | none => configs.head?.map (fun m => m.id)

/-- The Cloudflare functions-side `pickDefaultModelId` variant
(src/unnamed/part_007, `functions/api/models.ts`): a preferred provider
(`AI_PROVIDER` equal to `openai` or `gemini` after lowercasing) selects the
first entry of that provider when one exists, then a configured
`DEFAULT_MODEL_ID` present in the registry, then the first entry. -/
def pickDefaultModelIdFunctions (env : Env) (configs : List ModelConfig) : Option String :=
  if configs.length = 0 then none
  else
    let providerPref := jsToLower (env.AI_PROVIDER.getD "")
    match if providerPref = "openai" ∨ providerPref = "gemini" then
        configs.find? (fun m => m.provider == providerPref) else none with
    | some found => some found.id
    | none =>
      let explicit := jsTrim (env.DEFAULT_MODEL_ID.getD "")
      match if explicit ≠ "" then configs.find? (fun m => m.id == explicit) else none with
      | some m => some m.id
      | none => configs.head?.map (fun m => m.id)

/-- Over registries whose providers are `openai`/`gemini` (every registry
`loadModelsFromEnv` produces), the functions-side variant implements exactly
the spec's three-step default policy — the policy the cited astro-side
`pickDefaultModelId` lacks. -/
theorem pickDefaultModelIdFunctions_matches_claim (env : Env) (configs : List ModelConfig)
    (h : ∀ m ∈ configs, m.provider = "openai" ∨ m.provider = "gemini") :
    pickDefaultModelIdFunctions env configs = pickDefaultModelIdClaim env configs := by
  simp only [pickDefaultModelIdFunctions, pickDefaultModelIdClaim]
  by_cases h0 : configs.length = 0
  · rw [if_pos h0, if_pos h0]
  · rw [if_neg h0, if_neg h0]
    by_cases hp : jsToLower (env.AI_PROVIDER.getD "") = "openai" ∨
        jsToLower (env.AI_PROVIDER.getD "") = "gemini"
    · have hne : jsToLower (env.AI_PROVIDER.getD "") ≠ "" := by
        cases hp with
        | inl h1 => rw [h1]; decide
        | inr h1 => rw [h1]; decide
      rw [if_pos hp, if_pos hne]
    · have hfind : configs.find?
          (fun m => m.provider == jsToLower (env.AI_PROVIDER.getD "")) = none := by
        rw [List.find?_eq_none]
        intro m hm
        simp only [beq_iff_eq, Bool.not_eq_true, decide_eq_false_iff_not]
        intro hmp
        cases h m hm with
        | inl ho => exact hp (Or.inl (hmp ▸ ho))
        | inr hg => exact hp (Or.inr (hmp ▸ hg))
      rw [if_neg hp]
      by_cases hpe : jsToLower (env.AI_PROVIDER.getD "") = ""
      · have hc : ¬(jsToLower (env.AI_PROVIDER.getD "") ≠ "") := fun hc => hc hpe
        rw [if_neg hc]
      · rw [if_pos hpe, hfind]

/-! ## Provider adapters (functions/api/generate.ts)

Each adapter is embedded as a function returning `Except String R` where `R`
describes the outbound network request the source would hand to `fetch` /
`sendMessageStream`: an `.error` result means the adapter failed before any
network call was made. -/

/-- One item of an OpenAI multi-part `content` array: a `{type:'text'}` block
or a `{type:'image_url', detail:'high'}` block. -/
inductive OAContent where
  | text (s : String)
  | imageUrl (url : String)
deriving DecidableEq, Repr

/-- The `content` field of an outbound OpenAI message: a plain string or a
multi-part array. -/
inductive OAMessageContent where
  | str (s : String)
  | parts (items : List OAContent)
deriving DecidableEq, Repr

/-- An outbound OpenAI chat message: provider role vocabulary plus content. -/
structure OAMessage where
  role : String
  content : OAMessageContent
deriving DecidableEq, Repr

/-- History mapping of `streamFromOpenAI`: a text-only turn becomes a plain
string (part texts concatenated); a turn with an image becomes a multi-part
array keeping text blocks and `data:`-prefixed image blocks in order. -/
def openAIHistMsg (m : ChatMessage) : OAMessage :=
  let role := if m.role = Role.model then "assistant" else "user"
  if m.parts.any (fun p => p.image.isSome) then
    { role := role
      content := .parts (m.parts.flatMap (fun part =>
        (match jstr part.text with
         | some t => [OAContent.text t]
         | none => []) ++
        (match part.image with
         | some img => if jsStartsWith img.url "data:" then [OAContent.imageUrl img.url] else []
         | none => []))) }
  else
    { role := role
      content := .str (String.join (m.parts.map (fun p => p.text.getD ""))) }

/-- The new-turn `content` accumulation loop of `streamFromOpenAI`: text
blocks for truthy texts, image blocks for `data:` URIs, an error for an image
whose url is not a data URI; the boolean records whether any image was seen. -/
def buildOpenAIContent : List ChatPart → Except String (List OAContent × Bool)
  | [] => .ok ([], false)
  | part :: rest =>
    let textItems :=
      match jstr part.text with
      | some t => [OAContent.text t]
      | none => []
    match part.image with
    | none =>
      match buildOpenAIContent rest with
      | .error e => .error e
      | .ok (items, hasImage) => .ok (textItems ++ items, hasImage)
    | some img =>
      if jsStartsWith img.url "data:" then
        match buildOpenAIContent rest with
        | .error e => .error e
        | .ok (items, _) => .ok (textItems ++ [OAContent.imageUrl img.url] ++ items, true)
      else .error "Failed to process uploaded image"

/-- functions/api/generate.ts `normalizeOpenAIBase`: default public origin,
one trailing slash stripped, `/v1` appended unless the path already ends in a
`/v<digits>` segment. -/
def normalizeOpenAIBase (baseIn : Option String) : String :=
  let base := jsOrD [baseIn] "https://api.openai.com"
  let trimmed := if jsEndsWith base "/" then base.dropRight 1 else base
  let lastSeg := (jsSplit '/' trimmed).getLast?.getD ""
  let versionSeg :=
    (jsSplit '/' trimmed).length ≥ 2 && jsStartsWith lastSeg "v" &&
      lastSeg.length ≥ 2 && (lastSeg.data.drop 1).all Char.isDigit
  if versionSeg then trimmed else trimmed ++ "/v1"

/-- The outbound OpenAI request `streamFromOpenAI` would pass to `fetch`. -/
structure OpenAIRequest where
  url : String
  apiKey : String
  model : String
  temperature : Rat
  messages : List OAMessage
deriving DecidableEq, Repr

/-- functions/api/generate.ts `streamFromOpenAI`, up to the `fetch` call:
credential guard, history mapping, new-turn content accumulation, content
guard, then the request that would be sent. -/
def streamFromOpenAI (env : Env) (cfg : Option ModelConfig) (history : List ChatMessage)
    (newMessageParts : List ChatPart) : Except String OpenAIRequest :=
  let apiKey := jsTrim (jsOrD [cfg.bind (fun c => c.apiKey), env.OPENAI_API_KEY,
    env.OPENAI_APIKEY] "")
  if apiKey = "" then .error "OPENAI_API_KEY is required for OpenAI provider"
  else
    let messages := history.map openAIHistMsg
    match buildOpenAIContent newMessageParts with
    | .error e => .error e
    | .ok (content, hasImage) =>
      if content.length = 0 then .error "Message must contain text or images"
      else
        let userContent :=
          if hasImage then OAMessageContent.parts content
          else OAMessageContent.str
            ((content.head?.map (fun item =>
              match item with
              | .text t => t
              | .imageUrl _ => "")).getD "")
        let base := normalizeOpenAIBase (match jstr (cfg.bind (fun c => c.baseUrl)) with
          | some b => some b
          | none => some (jsOrD [env.OPENAI_BASE_URL, env.OPENAI_API_BASE,
              env.OPENAI_API_HOST, env.OPENAI_API_URL] ""))
        .ok { url := base ++ "/chat/completions"
              apiKey := apiKey
              model := jsOrD [cfg.map (fun c => c.model), env.OPENAI_MODEL_NAME,
                env.OPENAI_MODEL] "gpt-4o-mini"
              temperature := ((cfg.bind (fun c => c.temperature)).getD
                (env.OPENAI_TEMPERATURE.getD (7 / 10 : Rat)))
              messages := messages ++ [{ role := "user", content := userContent }] }

/-- A Gemini content part: a plain text string or an inline-data object with
MIME type and the base64 payload after the data URI's first comma. -/
inductive GeminiPart where
  | text (s : String)
  | inlineData (mimeType : String) (data : String)
deriving DecidableEq, Repr

/-- A history entry in Gemini format. -/
structure GeminiMsg where
  role : Role
  parts : List GeminiPart
deriving DecidableEq, Repr

/-- History mapping of `streamFromGemini`: a part with truthy text maps to
that text; otherwise an image with a `data:` URI maps to inline data; anything
else maps to `''` and is removed by the `filter(Boolean)`. -/
def geminiHistMsg (msg : ChatMessage) : GeminiMsg :=
  { role := msg.role
    parts := msg.parts.filterMap (fun part =>
      match jstr part.text with
      | some t => some (GeminiPart.text t)
      | none =>
        match part.image with
        | some img =>
          if jsStartsWith img.url "data:" then
            some (GeminiPart.inlineData img.type (((jsSplit ',' img.url).getD 1 "")))
          else none
        | none => none) }

/-- The new-turn parts loop of `streamFromGemini`: texts and `data:` images,
an error for an image whose url is not a data URI. -/
def buildGeminiParts : List ChatPart → Except String (List GeminiPart)
  | [] => .ok []
  | part :: rest =>
    let textItems :=
      match jstr part.text with
      | some t => [GeminiPart.text t]
      | none => []
    match part.image with
    | none =>
      match buildGeminiParts rest with
      | .error e => .error e
      | .ok items => .ok (textItems ++ items)
    | some img =>
      if jsStartsWith img.url "data:" then
        match buildGeminiParts rest with
        | .error e => .error e
        | .ok items =>
          .ok (textItems ++ [GeminiPart.inlineData img.type ((jsSplit ',' img.url).getD 1 "")]
            ++ items)
      else .error "Failed to process uploaded image"

/-- The outbound Gemini call `streamFromGemini` would hand to
`chat.sendMessageStream` (client construction performs no network call). -/
structure GeminiRequest where
  apiKey : String
  baseUrl : Option String
  model : String
  history : List GeminiMsg
  parts : List GeminiPart
deriving DecidableEq, Repr

/-- functions/api/generate.ts `streamFromGemini`, up to `sendMessageStream`:
config resolution, history conversion, new-turn conversion, content guard,
then the call that would be made. -/
def streamFromGemini (env : Env) (cfg : Option ModelConfig) (history : List ChatMessage)
    (newMessageParts : List ChatPart) : Except String GeminiRequest :=
  let apiKey := jsTrim (jsOrD [cfg.bind (fun c => c.apiKey), env.GEMINI_API_KEY] "")
  let baseUrl := jstr (some (jsTrim (jsOrD [cfg.bind (fun c => c.baseUrl), env.API_BASE_URL] "")))
  let modelName := jsOrD [cfg.map (fun c => c.model), env.GEMINI_MODEL_NAME] "gemini-2.5-flash"
  let convertedHistory := history.map geminiHistMsg
  match buildGeminiParts newMessageParts with
  | .error e => .error e
  | .ok parts =>
    if parts.length = 0 then .error "Message must contain text or images"
    else .ok { apiKey := apiKey, baseUrl := baseUrl, model := modelName,
               history := convertedHistory, parts := parts }

/-! ## Streaming gateway request handler (functions/api/generate.ts `onRequestPost`) -/

/-- The request body `{ sign, time, messages, pass, modelId }`; `messages` is
`none` when the body's field is not an array. -/
structure GenBody where
  sign : Option String := none
  time : Nat := 0
  messages : Option (List ChatMessage) := none
  pass : Option String := none
  modelId : Option String := none

/-- The handler's response, up to the provider dispatch: a 400 body
`{ error: { message } }`, a 401 body, or the 200 streaming dispatch carrying
the resolved config, the history and the new turn's parts. -/
inductive GenResponse where
  | badRequest (message : String)
  | unauthorized (message : String)
  | stream (cfg : ModelConfig) (history : List ChatMessage) (newMessageParts : List ChatPart)
deriving DecidableEq, Repr

/-- HTTP status of a `GenResponse`. -/
def GenResponse.status : GenResponse → Nat
  | .badRequest _ => 400
  | .unauthorized _ => 401
  | .stream _ _ _ => 200

/-- The 400 message of the history validation. -/
def invalidHistoryMessage : String :=
  "Invalid message history: The last message must be from user role."

/-- The fallback model selection of `onRequestPost` (its lines 349-358): the
registry lookup, and when that returns null — the comment says
`Fallback selection when no modelId`, but the guard is just `if (!cfg)` — an
env-based config chosen by provider preference and available keys. -/
def selectRequestCfg (env : Env) (configs : List ModelConfig)
    (modelId : Option String) : ModelConfig :=
  let openaiEnvCfg : ModelConfig :=
    { id := "openai_env", label := none, provider := "openai",
      model := jsOrD [env.OPENAI_MODEL_NAME, env.OPENAI_MODEL] "gpt-4o-mini",
      baseUrl := none, apiKey := none, temperature := none }
  let geminiEnvCfg : ModelConfig :=
    { id := "gemini_env", label := none, provider := "gemini",
      model := jsOrD [env.GEMINI_MODEL_NAME] "gemini-2.5-flash",
      baseUrl := none, apiKey := none, temperature := none }
  match getModelById configs modelId with
  | some cfg => cfg
  | none =>
    let pref := jsToLower (jsOrD [env.AI_PROVIDER, env.MODEL_PROVIDER] "")
    if pref = "openai" ∧ jstr (some (jsOrD [env.OPENAI_API_KEY, env.OPENAI_APIKEY] "")) ≠ none
    then openaiEnvCfg
    else if pref = "gemini" ∧ jstr env.GEMINI_API_KEY ≠ none then geminiEnvCfg
    else if jstr (some (jsOrD [env.OPENAI_API_KEY, env.OPENAI_APIKEY] "")) ≠ none
    then openaiEnvCfg
    else geminiEnvCfg

/-- functions/api/generate.ts `onRequestPost`, up to the provider dispatch:
message-history validation (400), password gate (401), signature check (401,
`hash` abstracting `sha256Hex`), then the dispatch decision with the selected
config. -/
def onRequestPost (hash : String → String) (env : Env) (body : GenBody) : GenResponse :=
  match body.messages with
  | none => .badRequest invalidHistoryMessage
  | some messages =>
    match messages.getLast? with
    | none => .badRequest invalidHistoryMessage
    | some lastMsg =>
      if lastMsg.role ≠ Role.user then .badRequest invalidHistoryMessage
      else
        let sitePassword := jsTrim (env.SITE_PASSWORD.getD "")
        let passList := if sitePassword ≠ "" then (jsSplit ',' sitePassword).map jsTrim
          else []
        let passOk : Bool :=
          match body.pass with
          | some p => p == sitePassword || passList.contains p
          | none => false
        if sitePassword ≠ "" ∧ ¬(passOk = true) then .unauthorized "Invalid password."
        else
          let secret := jsTrim (env.PUBLIC_SECRET_KEY.getD "")
          let lastText := String.join
            ((lastMsg.parts.map (fun p => p.text.getD "")).filter (fun s => s ≠ ""))
          let expected := hash (toString body.time ++ ":" ++ lastText ++ ":" ++ secret)
          if secret ≠ "" ∧ body.sign ≠ some expected then .unauthorized "Invalid signature."
          else
            let history := messages.dropLast
            let newMessageParts := lastMsg.parts
            let configs := loadModelsFromEnv env
            .stream (selectRequestCfg env configs body.modelId) history newMessageParts

/-! ## Conversation orchestrator state (src/src/components/Generator.tsx)

The solid-js signals that `archiveCurrentMessage` and `stopStreamFetch` touch
are gathered in one record; `storage` is the `chatSessions` blob that
`saveSessions` writes to localStorage, and `controller` records whether an
`AbortController` is set. -/

structure GeneratorState where
  sessions : List ChatSession
  currentSessionId : Option String
  messageList : List ChatMessage
  currentAssistantMessage : String
  loading : Bool
  controller : Bool
  storage : List ChatSession
deriving Repr

/-- src/src/components/Generator.tsx `saveCurrentSession`: no-op without an
active session id; otherwise update the matching session's messages and title
and write the updated list to storage. -/
def saveCurrentSession (now : Nat) (s : GeneratorState) : GeneratorState :=
  match s.currentSessionId with
  | none => s
  | some sessionId =>
    let title := generateSessionTitle s.messageList
    let updatedSessions := updateSession now s.sessions sessionId
      { messages := some s.messageList, title := some title }
    { s with sessions := updatedSessions, storage := updatedSessions }

/-- src/src/components/Generator.tsx `archiveCurrentMessage`: when the pending
assistant accumulator is non-empty, finalize it as a `model` message with the
accumulated text as sole part, append it, clear the accumulator, loading and
controller, and persist the session; otherwise do nothing. -/
def archiveCurrentMessage (now : Nat) (s : GeneratorState) : GeneratorState :=
  if s.currentAssistantMessage ≠ "" then
    let assistantMessage : ChatMessage :=
      { role := Role.model, parts := [{ text := some s.currentAssistantMessage, image := none }] }
    let updatedMessages := s.messageList ++ [assistantMessage]
    saveCurrentSession now
      { s with messageList := updatedMessages, currentAssistantMessage := "",
               loading := false, controller := false }
  else s

/-- src/src/components/Generator.tsx `stopStreamFetch`: when a controller is
set, abort the in-flight request (an external effect) and archive the pending
assistant message. -/
def stopStreamFetch (now : Nat) (s : GeneratorState) : GeneratorState :=
  if s.controller then archiveCurrentMessage now s else s

/-! ## Properties of the same-role collapse -/

/-- The collapse of a non-empty list is non-empty and its head carries the
role of the input's head (a dropped run prefix shares the head's role). -/
theorem convertReqMsgList_head_role (b : ChatMessage) (t : List ChatMessage) :
    ∃ h rest, convertReqMsgList (b :: t) = h :: rest ∧ h.role = b.role := by
  induction t generalizing b with
  | nil => exact ⟨b, [], rfl, rfl⟩
  | cons c t ih =>
    by_cases hbc : b.role = c.role
    · obtain ⟨h, rest, heq, hrole⟩ := ih c
      exact ⟨h, rest, by simp [convertReqMsgList, hbc, heq], by rw [hrole, hbc]⟩
    · exact ⟨b, convertReqMsgList (c :: t), by simp [convertReqMsgList, hbc], rfl⟩

/-- No two consecutive entries of the collapsed list share a role. -/
theorem convertReqMsgList_chain' (l : List ChatMessage) :
    List.Chain' (fun a b => a.role ≠ b.role) (convertReqMsgList l) := by
  induction l with
  | nil => simp [convertReqMsgList]
  | cons a rest ih =>
    cases rest with
    | nil => simp [convertReqMsgList]
    | cons b t =>
      by_cases hab : a.role = b.role
      · simpa [convertReqMsgList, hab] using ih
      · obtain ⟨h, hr, heq, hrole⟩ := convertReqMsgList_head_role b t
        have hchain : List.Chain' (fun x y => x.role ≠ y.role)
            (a :: convertReqMsgList (b :: t)) := by
          rw [List.chain'_cons']
          refine ⟨?_, ih⟩
          intro y hy
          rw [heq] at hy
          simp only [List.head?_cons, Option.mem_def, Option.some.injEq] at hy
          subst hy
          rw [hrole]
          exact hab
        simpa [convertReqMsgList, hab] using hchain

/-- The collapsed list ends at the input's last entry. -/
theorem convertReqMsgList_getLast? (l : List ChatMessage) :
    (convertReqMsgList l).getLast? = l.getLast? := by
  induction l with
  | nil => rfl
  | cons a rest ih =>
    cases rest with
    | nil => rfl
    | cons b t =>
      by_cases hab : a.role = b.role
      · simp only [convertReqMsgList, if_pos hab]
        rw [ih, List.getLast?_cons_cons]
      · obtain ⟨h, hr, heq, _⟩ := convertReqMsgList_head_role b t
        simp only [convertReqMsgList, if_neg hab]
        rw [heq, List.getLast?_cons_cons, ← heq, ih, List.getLast?_cons_cons]

/-- A list with no two consecutive equal roles is a fixed point of the
collapse. -/
theorem convertReqMsgList_eq_self (l : List ChatMessage)
    (h : List.Chain' (fun a b => a.role ≠ b.role) l) : convertReqMsgList l = l := by
  induction l with
  | nil => rfl
  | cons a rest ih =>
    cases rest with
    | nil => rfl
    | cons b t =>
      rw [List.chain'_cons] at h
      simp [convertReqMsgList, h.1, ih h.2]

/-- C2: for every non-empty list of chat messages, `convertReqMsgList`
returns a list in which no two consecutive entries share a role, and whose
last entry equals the last entry of the input list. -/
theorem convertReqMsgList_alternating_last (l : List ChatMessage) (_h : l ≠ []) :
    List.Chain' (fun a b => a.role ≠ b.role) (convertReqMsgList l) ∧
      (convertReqMsgList l).getLast? = l.getLast? :=
  ⟨convertReqMsgList_chain' l, convertReqMsgList_getLast? l⟩

/-- Witness for C2 at the concrete history `[user, user, model]`. -/
theorem convertReqMsgList_alternating_last_witness :
    List.Chain' (fun a b => a.role ≠ b.role)
        (convertReqMsgList [⟨Role.user, [⟨some "a", none⟩]⟩,
          ⟨Role.user, [⟨some "b", none⟩]⟩, ⟨Role.model, [⟨some "c", none⟩]⟩]) ∧
      (convertReqMsgList [⟨Role.user, [⟨some "a", none⟩]⟩,
          ⟨Role.user, [⟨some "b", none⟩]⟩, ⟨Role.model, [⟨some "c", none⟩]⟩]).getLast? =
        [⟨Role.user, [⟨some "a", none⟩]⟩, ⟨Role.user, [⟨some "b", none⟩]⟩,
          (⟨Role.model, [⟨some "c", none⟩]⟩ : ChatMessage)].getLast? :=
  convertReqMsgList_alternating_last _ (by simp)

/-- C10: the same-role collapse is idempotent. -/
theorem convertReqMsgList_idempotent (l : List ChatMessage) :
    convertReqMsgList (convertReqMsgList l) = convertReqMsgList l :=
  convertReqMsgList_eq_self _ (convertReqMsgList_chain' l)

/-! ## Properties of the session store -/

/-- C5: `generateSessionTitle` returns `"New Chat"` when the list holds no
user turn (in particular for the empty list); otherwise, with `content` the
first user turn's part texts joined (JS `join(' ')`), it returns the first 30
characters of `content` with `"..."` appended exactly when `content` is
longer than 30 characters. -/
theorem generateSessionTitle_spec (messages : List ChatMessage) :
    ((∀ m ∈ messages, m.role ≠ Role.user) → generateSessionTitle messages = "New Chat") ∧
    (∀ u, messages.find? (fun msg => decide (msg.role = Role.user)) = some u →
      generateSessionTitle messages =
        (if (String.intercalate " " (u.parts.map (fun part => part.text.getD ""))).length > 30
         then (String.intercalate " " (u.parts.map (fun part => part.text.getD ""))).take 30
           ++ "..."
         else String.intercalate " " (u.parts.map (fun part => part.text.getD "")))) := by
  constructor
  · intro hno
    have hfind : messages.find? (fun msg => decide (msg.role = Role.user)) = none := by
      rw [List.find?_eq_none]
      intro m hm
      simpa using hno m hm
    by_cases hlen : messages.length = 0
    · simp [generateSessionTitle, hlen]
    · simp [generateSessionTitle, hlen, hfind]
  · intro u hu
    have hne : messages.length ≠ 0 := by
      intro h0
      rw [List.length_eq_zero] at h0
      subst h0
      simp at hu
    simp [generateSessionTitle, hne, hu]

set_option maxRecDepth 4000 in
/-- Witness for C5: the spec's 41-character first user turn yields its first
30 characters plus an ellipsis. -/
theorem generateSessionTitle_spec_witness :
    generateSessionTitle
        [⟨Role.user, [⟨some "Explain quantum tunneling in simple terms", none⟩]⟩] =
      "Explain quantum tunneling in s" ++ "..." := by
  have h := (generateSessionTitle_spec
    [⟨Role.user, [⟨some "Explain quantum tunneling in simple terms", none⟩]⟩]).2
    ⟨Role.user, [⟨some "Explain quantum tunneling in simple terms", none⟩]⟩ (by decide)
  rw [h]
  decide

/-- C9: `updateSession` preserves the list's length, returns every session
whose id differs from the target unchanged (`updatedAt` included), and gives
the matching session the patch's fields with `updatedAt` refreshed to `now`,
a value no smaller than the old one under a non-decreasing clock. -/
theorem updateSession_frame (now : Nat) (sessions : List ChatSession)
    (sessionId : String) (updates : SessionPatch) :
    (updateSession now sessions sessionId updates).length = sessions.length ∧
    (∀ (i : Nat) (s : ChatSession), sessions[i]? = some s → s.id ≠ sessionId →
      (updateSession now sessions sessionId updates)[i]? = some s) ∧
    (∀ (i : Nat) (s : ChatSession), sessions[i]? = some s → s.id = sessionId →
      ∃ s', (updateSession now sessions sessionId updates)[i]? = some s' ∧
        s'.id = updates.id.getD s.id ∧
        s'.title = updates.title.getD s.title ∧
        s'.messages = updates.messages.getD s.messages ∧
        s'.createdAt = updates.createdAt.getD s.createdAt ∧
        s'.updatedAt = now ∧
        (s.updatedAt ≤ now → s.updatedAt ≤ s'.updatedAt)) := by
  refine ⟨by simp [updateSession], ?_, ?_⟩
  · intro i s hs hid
    simp [updateSession, List.getElem?_map, hs, hid]
  · intro i s hs hid
    refine ⟨⟨updates.id.getD s.id, updates.title.getD s.title,
      updates.messages.getD s.messages, updates.createdAt.getD s.createdAt, now⟩, ?_,
      rfl, rfl, rfl, rfl, rfl, fun hle => hle⟩
    simp [updateSession, List.getElem?_map, hs, if_pos hid]

/-! ## Properties of the orchestrator's finalisation step -/

/-- `saveCurrentSession` without an active session id is the identity. -/
theorem saveCurrentSession_none (now : Nat) (s : GeneratorState)
    (h : s.currentSessionId = none) : saveCurrentSession now s = s := by
  unfold saveCurrentSession
  rw [h]

/-- `saveCurrentSession` with an active session id writes the updated session
list to both the state and storage. -/
theorem saveCurrentSession_some (now : Nat) (s : GeneratorState) (sid : String)
    (h : s.currentSessionId = some sid) :
    saveCurrentSession now s =
      { s with
        sessions := updateSession now s.sessions sid
          ⟨none, some (generateSessionTitle s.messageList), some s.messageList, none, none⟩
        storage := updateSession now s.sessions sid
          ⟨none, some (generateSessionTitle s.messageList), some s.messageList, none, none⟩ } := by
  unfold saveCurrentSession
  rw [h]

/-- C3: on stream end (`archiveCurrentMessage`) or abort (`stopStreamFetch`,
which archives when a controller is set): a non-empty accumulator is
finalized as a `model` message whose sole part is the accumulated text,
appended to the active message list; the accumulator is cleared; the session
list written to storage has the active session carrying the new message list;
an empty accumulator leaves the whole state (message list included)
unchanged. -/
theorem archiveCurrentMessage_finalizes (now : Nat) (s : GeneratorState) :
    (s.currentAssistantMessage ≠ "" →
      (archiveCurrentMessage now s).messageList =
        s.messageList ++ [⟨Role.model, [⟨some s.currentAssistantMessage, none⟩]⟩] ∧
      (archiveCurrentMessage now s).currentAssistantMessage = "" ∧
      (∀ sid, s.currentSessionId = some sid →
        (archiveCurrentMessage now s).storage = (archiveCurrentMessage now s).sessions ∧
        ∀ sess ∈ (archiveCurrentMessage now s).storage, sess.id = sid →
          sess.messages =
            s.messageList ++ [⟨Role.model, [⟨some s.currentAssistantMessage, none⟩]⟩] ∧
          sess.updatedAt = now)) ∧
    (s.currentAssistantMessage = "" → archiveCurrentMessage now s = s) ∧
    (s.controller = true → stopStreamFetch now s = archiveCurrentMessage now s) := by
  refine ⟨?_, ?_, ?_⟩
  · intro h
    have hif : archiveCurrentMessage now s =
        saveCurrentSession now
          { s with
            messageList :=
              s.messageList ++ [⟨Role.model, [⟨some s.currentAssistantMessage, none⟩]⟩]
            currentAssistantMessage := ""
            loading := false
            controller := false } := by
      unfold archiveCurrentMessage
      rw [if_pos h]
    rw [hif]
    cases hcs : s.currentSessionId with
    | none =>
      rw [saveCurrentSession_none now _ rfl]
      refine ⟨rfl, rfl, ?_⟩
      intro sid hsid
      exact absurd hsid (by simp)
    | some sid =>
      rw [saveCurrentSession_some now _ sid rfl]
      refine ⟨rfl, rfl, ?_⟩
      intro sid2 hsid2
      obtain rfl : sid = sid2 := by simpa using hsid2
      refine ⟨rfl, ?_⟩
      intro sess hmem hsess
      simp only [updateSession, List.mem_map] at hmem
      obtain ⟨orig, horig, heq⟩ := hmem
      by_cases ho : orig.id = sid
      · rw [if_pos ho] at heq
        subst heq
        exact ⟨rfl, rfl⟩
      · rw [if_neg ho] at heq
        subst heq
        exact absurd hsess ho
  · intro h
    simp [archiveCurrentMessage, h]
  · intro hc
    simp [stopStreamFetch, hc]

/-! ## Properties of the gateway request handler -/

/-- The history validation of `onRequestPost`: `messages` is an array, is
non-empty (it has a last entry), and the last entry's role is `user`. -/
def validMessages (om : Option (List ChatMessage)) : Prop :=
  ∃ msgs lastMsg, om = some msgs ∧ msgs.getLast? = some lastMsg ∧ lastMsg.role = Role.user

/-- The password/signature/dispatch tail of the handler never answers 400. -/
theorem status_ite_ne_400 {c1 c2 : Prop} [Decidable c1] [Decidable c2]
    (m1 m2 : String) (cfg : ModelConfig) (hi : List ChatMessage) (pa : List ChatPart) :
    (if c1 then GenResponse.unauthorized m1
     else if c2 then GenResponse.unauthorized m2
     else GenResponse.stream cfg hi pa).status ≠ 400 := by
  split
  · simp [GenResponse.status]
  · split
    · simp [GenResponse.status]
    · simp [GenResponse.status]

/-- C7: the handler answers status 400 with body `{ error: { message } }` iff
`messages` is not a non-empty array ending in a user turn; the check is
decided before the password gate, the signature check and the provider
dispatch (the 400 arises for every `env`, password and signature). -/
theorem onRequestPost_badRequest_iff (hash : String → String) (env : Env) (body : GenBody) :
    ((onRequestPost hash env body).status = 400 ↔ ¬validMessages body.messages) ∧
    (¬validMessages body.messages →
      onRequestPost hash env body = .badRequest invalidHistoryMessage) := by
  cases hm : body.messages with
  | none =>
    simp only [onRequestPost, hm]
    refine ⟨⟨fun _ => ?_, fun _ => by simp [GenResponse.status]⟩, fun _ => trivial⟩
    rintro ⟨msgs, lastMsg, heq, -, -⟩
    exact Option.noConfusion heq
  | some msgs =>
    simp only [onRequestPost, hm]
    cases hl : msgs.getLast? with
    | none =>
      refine ⟨⟨fun _ => ?_, fun _ => by simp [GenResponse.status]⟩,
        fun _ => rfl⟩
      rintro ⟨msgs2, lastMsg, heq, hlast, -⟩
      obtain rfl : msgs = msgs2 := by simpa using heq
      rw [hl] at hlast
      exact Option.noConfusion hlast
    | some lastMsg =>
      by_cases hrole : lastMsg.role = Role.user
      · have hvalid : validMessages (some msgs) := ⟨msgs, lastMsg, rfl, hl, hrole⟩
        simp only [hrole, ne_eq, not_true_eq_false, if_false]
        exact ⟨⟨fun h400 => absurd h400 (status_ite_ne_400 _ _ _ _ _),
          fun hnv => absurd hvalid hnv⟩, fun hnv => absurd hvalid hnv⟩
      · have hnv : ¬validMessages (some msgs) := by
          rintro ⟨msgs2, lastMsg2, heq, hlast, hrole2⟩
          obtain rfl : msgs = msgs2 := by simpa using heq
          rw [hl] at hlast
          obtain rfl : lastMsg = lastMsg2 := by simpa using hlast
          exact hrole hrole2
        simp only [hrole, ne_eq, not_false_eq_true, if_true]
        exact ⟨⟨fun _ => hnv, fun _ => by simp [GenResponse.status]⟩, fun _ => trivial⟩

/-! ## Properties of the registry load -/

set_option maxRecDepth 4000 in
/-- C6: `loadModelsFromEnv` is the structured entries (which all carry a
recognised provider and a non-empty model name, and which are empty whenever
the models JSON is unset, malformed or not an array), followed by at most one
legacy OpenAI entry present exactly when both an API key and a model name are
configured, followed by at most one legacy Gemini entry present exactly when
an API key is configured, whose model name defaults to `"gemini-2.5-flash"`
when unset. -/
theorem loadModelsFromEnv_spec (env : Env) :
    ∃ S O G : List ModelConfig,
      loadModelsFromEnv env = S ++ O ++ G ∧
      (∀ m ∈ S, (m.provider = "openai" ∨ m.provider = "gemini") ∧ m.model ≠ "") ∧
      (env.parsedModels = none → S = []) ∧
      (∀ parsed, env.parsedModels = some parsed →
        S = (parsed.mapIdx rawToConfig).filter
          (fun m => (m.provider == "openai" || m.provider == "gemini") && m.model != "")) ∧
      O.length ≤ 1 ∧
      (O ≠ [] ↔ jsTrim (jsOrD [env.OPENAI_API_KEY, env.OPENAI_APIKEY] "") ≠ "" ∧
        jsTrim (jsOrD [env.OPENAI_MODEL_NAME, env.OPENAI_MODEL] "") ≠ "") ∧
      (∀ m ∈ O, m.id = "openai_env" ∧ m.provider = "openai" ∧
        m.model = jsTrim (jsOrD [env.OPENAI_MODEL_NAME, env.OPENAI_MODEL] "")) ∧
      G.length ≤ 1 ∧
      (G ≠ [] ↔ jsTrim (env.GEMINI_API_KEY.getD "") ≠ "") ∧
      (∀ m ∈ G, m.id = "gemini_env" ∧ m.provider = "gemini" ∧
        (jstr env.GEMINI_MODEL_NAME = none → m.model = "gemini-2.5-flash")) := by
  refine ⟨(match env.parsedModels with
      | some parsed =>
        if parsed.length ≠ 0 then
          (parsed.mapIdx rawToConfig).filter
            (fun m => (m.provider == "openai" || m.provider == "gemini") && m.model != "")
        else []
      | none => []),
    (if jsTrim (jsOrD [env.OPENAI_API_KEY, env.OPENAI_APIKEY] "") ≠ "" ∧
        jsTrim (jsOrD [env.OPENAI_MODEL_NAME, env.OPENAI_MODEL] "") ≠ "" then
      [{ id := "openai_env", label := some "OpenAI (ENV)", provider := "openai",
         model := jsTrim (jsOrD [env.OPENAI_MODEL_NAME, env.OPENAI_MODEL] ""),
         baseUrl := jstr (some (jsTrim (jsOrD [env.OPENAI_BASE_URL, env.OPENAI_API_BASE,
           env.OPENAI_API_HOST, env.OPENAI_API_URL] ""))),
         apiKey := some (jsTrim (jsOrD [env.OPENAI_API_KEY, env.OPENAI_APIKEY] "")),
         temperature := some (env.OPENAI_TEMPERATURE.getD (7 / 10 : Rat)) }]
     else []),
    (if jsTrim (env.GEMINI_API_KEY.getD "") ≠ "" then
      [{ id := "gemini_env", label := some "Gemini (ENV)", provider := "gemini",
         model := jsTrim (jsOrD [env.GEMINI_MODEL_NAME] "gemini-2.5-flash"),
         baseUrl := jstr (some (jsTrim (env.API_BASE_URL.getD ""))),
         apiKey := some (jsTrim (env.GEMINI_API_KEY.getD "")),
         temperature := none }]
     else []),
    rfl, ?_, ?_, ?_, ?_, ?_, ?_, ?_, ?_, ?_⟩
  · intro m hm
    split at hm
    · split at hm
      · rw [List.mem_filter] at hm
        obtain ⟨-, hpred⟩ := hm
        simp only [Bool.and_eq_true, Bool.or_eq_true, beq_iff_eq, bne_iff_ne, ne_eq] at hpred
        exact ⟨hpred.1, hpred.2⟩
      · simp at hm
    · simp at hm
  · intro hp
    rw [hp]
  · intro parsed hp
    rw [hp]
    split
    · rename_i p heq
      obtain rfl : p = parsed := by
        injection heq with h2
        exact h2.symm
      split
      · rfl
      · rename_i hlen
        simp only [ne_eq, not_not] at hlen
        rw [List.length_eq_zero] at hlen
        subst hlen
        rfl
    · rename_i heq
      exact Option.noConfusion heq
  · split <;> simp
  · split
    · rename_i hcond
      simp [hcond]
    · rename_i hcond
      simp only [ne_eq, not_not]
      constructor
      · intro hne
        exact absurd trivial hne
      · intro hcond2
        exact absurd hcond2 hcond
  · intro m hm
    split at hm
    · simp only [List.mem_singleton] at hm
      subst hm
      exact ⟨rfl, rfl, rfl⟩
    · simp at hm
  · split <;> simp
  · split
    · rename_i hcond
      simp [hcond]
    · rename_i hcond
      simp only [ne_eq, not_not]
      constructor
      · intro hne
        exact absurd trivial hne
      · intro hcond2
        exact absurd hcond2 hcond
  · intro m hm
    split at hm
    · simp only [List.mem_singleton] at hm
      subst hm
      refine ⟨rfl, rfl, ?_⟩
      intro hnone
      simp only [jsOrD, hnone]
      decide
    · simp at hm

/-! ## Properties of the default-model policy -/

/-- C4 (amended): the astro-side `pickDefaultModelId` consults no
preferred-provider setting: it returns null iff the registry is empty,
returns a configured default-model-id's entry when that id is present, and
otherwise returns the first entry's id. -/
theorem pickDefaultModelId_default_or_first (env : Env) (configs : List ModelConfig) :
    (pickDefaultModelId env configs = none ↔ configs = []) ∧
    (∀ m : ModelConfig,
      configs.find? (fun c => c.id == jsTrim (env.DEFAULT_MODEL_ID.getD "")) = some m →
      jsTrim (env.DEFAULT_MODEL_ID.getD "") ≠ "" →
      pickDefaultModelId env configs = some m.id) ∧
    ((jsTrim (env.DEFAULT_MODEL_ID.getD "") = "" ∨
      configs.find? (fun c => c.id == jsTrim (env.DEFAULT_MODEL_ID.getD "")) = none) →
      pickDefaultModelId env configs = configs.head?.map (fun m => m.id)) := by
  refine ⟨?_, ?_, ?_⟩
  · cases configs with
    | nil => simp [pickDefaultModelId]
    | cons c rest =>
      simp only [pickDefaultModelId, List.length_cons, Nat.succ_ne_zero, if_false]
      constructor
      · intro hnone
        exfalso
        revert hnone
        split
        · split <;> simp
        · simp
      · intro hfalse
        exact absurd hfalse (List.cons_ne_nil c rest)
  · intro m hfind hne
    have hlen : configs.length ≠ 0 := by
      intro h0
      rw [List.length_eq_zero] at h0
      subst h0
      exact Option.noConfusion hfind
    simp [pickDefaultModelId, hlen, hne, hfind]
  · intro h
    cases configs with
    | nil => simp [pickDefaultModelId]
    | cons c rest =>
      cases h with
      | inl hempty => simp [pickDefaultModelId, hempty]
      | inr hnone =>
        by_cases hne : jsTrim (env.DEFAULT_MODEL_ID.getD "") = ""
        · simp [pickDefaultModelId, hne]
        · simp [pickDefaultModelId, hne, hnone]

set_option maxRecDepth 4000 in
/-- Counterexample for C4 as stated: with `AI_PROVIDER=gemini` configured and
a registry whose first entry is an OpenAI one, the source's
`pickDefaultModelId` returns the first entry (`"o1"`), not the first Gemini
entry (`"g1"`) the claimed preferred-provider step (a) would select. -/
theorem pickDefaultModelId_claim_counterexample :
    pickDefaultModelId { AI_PROVIDER := some "gemini" }
        [⟨"o1", none, "openai", "m", none, none, none⟩,
          ⟨"g1", none, "gemini", "m", none, none, none⟩] = some "o1" ∧
    pickDefaultModelIdClaim { AI_PROVIDER := some "gemini" }
        [⟨"o1", none, "openai", "m", none, none, none⟩,
          ⟨"g1", none, "gemini", "m", none, none, none⟩] = some "g1" ∧
    pickDefaultModelId { AI_PROVIDER := some "gemini" }
        [⟨"o1", none, "openai", "m", none, none, none⟩,
          ⟨"g1", none, "gemini", "m", none, none, none⟩] ≠
      pickDefaultModelIdClaim { AI_PROVIDER := some "gemini" }
        [⟨"o1", none, "openai", "m", none, none, none⟩,
          ⟨"g1", none, "gemini", "m", none, none, none⟩] :=
  ⟨by decide, by decide, by decide⟩

/-! ## The handler's fallback on an unknown model id (C1) -/

/-- The environment of the C1 failing input: a one-entry registry from the
models JSON, no legacy keys, no password, no secret. -/
def envUnknownModel : Env :=
  { parsedModels :=
      some [⟨some "m1", none, some "gemini", some "gemini-2.5-flash", none, some "k1", none⟩] }

/-- The request of the C1 failing input: a valid single-user-turn history and
a `modelId` absent from the registry. -/
def bodyUnknownModel : GenBody :=
  { messages := some [⟨Role.user, [⟨some "hi", none⟩]⟩], modelId := some "nope" }

set_option maxRecDepth 8000 in
/-- C1 (code-bug evidence): `getModelById` resolves the unknown id to null,
yet the handler answers no invalid-model client error: the `if (!cfg)`
fallback (commented `Fallback selection when no modelId`) substitutes an
env-based Gemini config and proceeds to the provider dispatch with
status 200. -/
theorem onRequestPost_unknown_modelId_falls_back :
    getModelById (loadModelsFromEnv envUnknownModel) (some "nope") = none ∧
    onRequestPost (fun _ => "") envUnknownModel bodyUnknownModel =
      GenResponse.stream ⟨"gemini_env", none, "gemini", "gemini-2.5-flash", none, none, none⟩
        [] [⟨some "hi", none⟩] ∧
    (onRequestPost (fun _ => "") envUnknownModel bodyUnknownModel).status = 200 :=
  ⟨by decide, by decide, by decide⟩

/-! ## The adapters' content guard (C8) -/

/-- A new turn all of whose parts carry neither truthy text nor an image
accumulates no OpenAI content blocks. -/
theorem buildOpenAIContent_empty (parts : List ChatPart)
    (h : ∀ p ∈ parts, jstr p.text = none ∧ p.image = none) :
    buildOpenAIContent parts = .ok ([], false) := by
  induction parts with
  | nil => rfl
  | cons part rest ih =>
    obtain ⟨ht, hi⟩ := h part (List.mem_cons_self part rest)
    have hrest := ih (fun p hp => h p (List.mem_cons_of_mem part hp))
    simp [buildOpenAIContent, ht, hi, hrest]

/-- A new turn all of whose parts carry neither truthy text nor an image
accumulates no Gemini parts. -/
theorem buildGeminiParts_empty (parts : List ChatPart)
    (h : ∀ p ∈ parts, jstr p.text = none ∧ p.image = none) :
    buildGeminiParts parts = .ok [] := by
  induction parts with
  | nil => rfl
  | cons part rest ih =>
    obtain ⟨ht, hi⟩ := h part (List.mem_cons_self part rest)
    have hrest := ih (fun p hp => h p (List.mem_cons_of_mem part hp))
    simp [buildGeminiParts, ht, hi, hrest]

/-- C8: called with a new turn containing no text and no image, both provider
adapters fail with the content error before any network call (the `.error`
result means no outbound request was ever produced); for the OpenAI adapter
the content error is reached once its credential guard passes. -/
theorem adapters_reject_empty_turn (env : Env) (cfg : Option ModelConfig)
    (history : List ChatMessage) (parts : List ChatPart)
    (h : ∀ p ∈ parts, jstr p.text = none ∧ p.image = none) :
    streamFromGemini env cfg history parts = .error "Message must contain text or images" ∧
    (jsTrim (jsOrD [cfg.bind (fun c => c.apiKey), env.OPENAI_API_KEY,
        env.OPENAI_APIKEY] "") ≠ "" →
      streamFromOpenAI env cfg history parts =
        .error "Message must contain text or images") := by
  constructor
  · simp [streamFromGemini, buildGeminiParts_empty parts h]
  · intro hkey
    simp [streamFromOpenAI, hkey, buildOpenAIContent_empty parts h]

set_option maxRecDepth 4000 in
/-- Witness for C8: the empty new turn `[]` is rejected by both adapters (the
OpenAI adapter given a configured key). -/
theorem adapters_reject_empty_turn_witness :
    streamFromGemini {} none [] [] = .error "Message must contain text or images" ∧
    streamFromOpenAI { OPENAI_API_KEY := some "k1" } none [] [] =
      .error "Message must contain text or images" := by
  have h1 := adapters_reject_empty_turn {} none [] [] (by simp)
  have h2 := adapters_reject_empty_turn { OPENAI_API_KEY := some "k1" } none [] [] (by simp)
  exact ⟨h1.1, h2.2 (by decide)⟩
